import Mathlib

/-!
Verification of the schedule-matching core of `scheduling.py`
(`WebScheduleMatcher`).  The matcher is a pure computation over user
profiles; we embed it shallowly:

* a wall-clock time `"HH:MM"` is modelled by the pair of numbers the code
  obtains from `time_str.split(':')`, so `Time := Nat × Nat`;
* Python `set`s of slots are modelled as lists (all uses are membership
  tests and loops whose accumulated sums are order-independent);
* Python `dict`s keyed by day name are modelled as association lists with
  insertion-order/replace semantics (`dictInsert`);
* Python floats are modelled as exact rationals (`ℚ`); `round(x, 1)` is
  round-half-to-even (`pyRound1`) and `int(x)` truncates toward zero
  (`pyInt`);
* a raised exception (`KeyError` from a `dict` lookup with an unknown key)
  is modelled by `Option.none` in the result type: `none` means the call
  raised, `some r` means the call returned the value `r`;
* the profile store (`load_user_profiles`) is an external collaborator and
  is passed in as a lookup function `String → Option UserData`; an absent
  identifier is `none`.
-/

namespace Scheduling

/-- A parsed `"HH:MM"` wall-clock time: `(hours, minutes)`. -/
abbrev Time := Nat × Nat

/-- A time slot `(start, end)`, as stored in the availability sets. -/
abbrev TimeSlot := Time × Time

/-- `time_to_minutes` from `get_overlapping_slots`:
`hours * 60 + minutes`. -/
def time_to_minutes (t : Time) : Nat := t.1 * 60 + t.2

/-- `WebScheduleMatcher.get_overlapping_slots`: convert both slots to
minutes, add `24*60` to an end that is `≤` its start (midnight
crossover), and report overlap iff neither adjusted end is `≤` the other
start. -/
def get_overlapping_slots (slot1 slot2 : TimeSlot) : Bool :=
  let start1_min := time_to_minutes slot1.1
  let end1_min := time_to_minutes slot1.2
  let start2_min := time_to_minutes slot2.1
  let end2_min := time_to_minutes slot2.2
  let end1_adj := if end1_min ≤ start1_min then end1_min + 24 * 60 else end1_min
  let end2_adj := if end2_min ≤ start2_min then end2_min + 24 * 60 else end2_min
  !(decide (end1_adj ≤ start2_min) || decide (end2_adj ≤ start1_min))

/-- The midnight-adjusted end of a slot (the value `get_overlapping_slots`
compares against the other slot's start). -/
def adjusted_end (slot : TimeSlot) : Nat :=
  let s := time_to_minutes slot.1
  let e := time_to_minutes slot.2
  if e ≤ s then e + 24 * 60 else e

/-- `self.time_slots`: the canonical grid of 12 two-hour slots. -/
def time_slots : List TimeSlot :=
  [((0, 0), (2, 0)), ((2, 0), (4, 0)), ((4, 0), (6, 0)), ((6, 0), (8, 0)),
   ((8, 0), (10, 0)), ((10, 0), (12, 0)), ((12, 0), (14, 0)), ((14, 0), (16, 0)),
   ((16, 0), (18, 0)), ((18, 0), (20, 0)), ((20, 0), (22, 0)), ((22, 0), (0, 0))]

/-- The seven canonical day-of-week keys (Sunday first), `self.days`. -/
inductive Day
  | sunday | monday | tuesday | wednesday | thursday | friday | saturday
deriving DecidableEq, Repr

/-- `self.days` as the list of day-name strings, in schema order. -/
def days : List String :=
  ["sunday", "monday", "tuesday", "wednesday", "thursday", "friday", "saturday"]

/-- Key lookup in a schedule `dict`: the dict built by
`_initialize_empty_schedule` has exactly the seven canonical day names as
keys, so looking up any other string raises `KeyError` (here: `none`). -/
def lookupDay (name : String) : Option Day :=
  if name = "sunday" then some .sunday
  else if name = "monday" then some .monday
  else if name = "tuesday" then some .tuesday
  else if name = "wednesday" then some .wednesday
  else if name = "thursday" then some .thursday
  else if name = "friday" then some .friday
  else if name = "saturday" then some .saturday
  else none

/-- One day's schedule entry: the three slot sets (Python sets, modelled
as lists). -/
structure DaySchedule where
  available : List TimeSlot
  avoid : List TimeSlot
  valid : List TimeSlot
deriving DecidableEq, Repr

/-- A loaded user profile, as produced by `load_user_profiles`:
name/metadata plus the schedule dict (total on the seven canonical
days). `skills` entries are `(skill_name, proficiency_level)`. -/
structure UserData where
  name : String
  first_name : String
  last_name : String
  department : String
  year : Nat
  skills : List (String × Nat)
  schedule : Day → DaySchedule

/-- The profile store: `load_user_profiles` restricted to one identifier;
unknown identifiers are absent (`none`). -/
abbrev Store := String → Option UserData

/-- Python `int(x)` on a float: truncation toward zero. -/
def pyInt (q : ℚ) : ℤ := if 0 ≤ q then ⌊q⌋ else ⌈q⌉

/-- Python `round` to the nearest integer (banker's rounding:
round-half-to-even), on the exact rational value. -/
def roundHalfEven (q : ℚ) : ℤ :=
  if q - ⌊q⌋ < 1 / 2 then ⌊q⌋
  else if 1 / 2 < q - ⌊q⌋ then ⌊q⌋ + 1
  else if ⌊q⌋ % 2 = 0 then ⌊q⌋ else ⌊q⌋ + 1

/-- Python `round(x, 1)`. -/
def pyRound1 (q : ℚ) : ℚ := (roundHalfEven (q * 10) : ℚ) / 10

/-! ## `calculate_schedule_match_percentage` -/

/-- The exact-grid credit loop: `for slot in self.time_slots: if slot in
user1_available and slot in user2_available: day_common += 1`. -/
def day_exact_credit (user1_available user2_available : List TimeSlot) : Nat :=
  time_slots.countP fun slot => user1_available.contains slot && user2_available.contains slot

/-- The partial-overlap credit loop: the number of pairs
`(slot1 ∈ user1_available, slot2 ∈ user2_available)` with
`slot1 != slot2` and `get_overlapping_slots(slot1, slot2)`; each such
pair adds `0.5` to `day_common`. -/
def day_pair_credit (user1_available user2_available : List TimeSlot) : Nat :=
  (user1_available.map fun slot1 =>
    user2_available.countP fun slot2 =>
      decide (slot1 ≠ slot2) && get_overlapping_slots slot1 slot2).sum

/-- The value of `day_common` after both loops of the per-day body. -/
def day_common_points (user1_available user2_available : List TimeSlot) : ℚ :=
  (day_exact_credit user1_available user2_available : ℚ) +
    (1 / 2) * (day_pair_credit user1_available user2_available : ℚ)

/-- One entry of `day_breakdown`. `common_slots` is `int(day_common)`. -/
structure DayBreak where
  common_slots : ℤ
  total_possible : Nat
  day_percentage : ℚ
  user1_available : Nat
  user2_available : Nat
deriving DecidableEq, Repr

/-- The per-day body of the loop in `calculate_schedule_match_percentage`:
`schedule[day]` raises `KeyError` (= `none`) when `day` is not one of the
seven canonical keys; otherwise it builds the `day_breakdown` entry and
yields the raw `day_common` for the running totals. -/
def processDay (u1 u2 : UserData) (dayName : String) : Option (DayBreak × ℚ) :=
  match lookupDay dayName with
  | none => none
  | some day =>
    let user1_available := (u1.schedule day).available
    let user2_available := (u2.schedule day).available
    let day_common := day_common_points user1_available user2_available
    let day_total := time_slots.length
    some (⟨pyInt day_common, day_total,
      if 0 < day_total then day_common / (day_total : ℚ) * 100 else 0,
      user1_available.length, user2_available.length⟩, day_common)

/-- Python `dict` assignment `d[k] = v`: replace in place if the key is
present (keeping its position), otherwise append. -/
def dictInsert {α : Type} (l : List (String × α)) (k : String) (v : α) :
    List (String × α) :=
  if l.any fun p => p.1 == k then l.map fun p => if p.1 == k then (k, v) else p
  else l ++ [(k, v)]

/-- The `for day in preferred_days` loop of
`calculate_schedule_match_percentage`, with running accumulators
`day_breakdown`, `common_slots`, `total_possible_slots`. -/
def matchLoop (u1 u2 : UserData) (bd : List (String × DayBreak)) (cs : ℚ)
    (tp : Nat) : List String → Option (List (String × DayBreak) × ℚ × Nat)
  | [] => some (bd, cs, tp)
  | dayName :: rest =>
    match processDay u1 u2 dayName with
    | none => none
    | some (entry, day_common) =>
        matchLoop u1 u2 (dictInsert bd dayName entry) (cs + day_common)
          (tp + time_slots.length) rest

/-- `WebScheduleMatcher._calculate_meeting_potential`: mean over the
`day_breakdown` values of the day percentage, multiplied by `1.2` when
that entry's (truncated) `common_slots` is at least 3. -/
def calculate_meeting_potential (day_breakdown : List (String × DayBreak)) : ℚ :=
  let total_score := (day_breakdown.map fun p =>
    if 3 ≤ p.2.common_slots then p.2.day_percentage * (6 / 5)
    else p.2.day_percentage).sum
  let total_days := day_breakdown.length
  if 0 < total_days then total_score / (total_days : ℚ) else 0

/-- `WebScheduleMatcher._calculate_recommendation_score`:
`0.6 * match_percentage + 0.4 * meeting_potential` (floats modelled as
exact rationals). -/
def calculate_recommendation_score (match_percentage meeting_potential : ℚ) : ℚ :=
  match_percentage * (3 / 5) + meeting_potential * (2 / 5)

/-- The error dict `{'error': ..., 'match_percentage': 0,
'common_slots': 0}` returned when a profile is missing. -/
structure MatchErr where
  error : String
  match_percentage : ℚ
  common_slots : ℤ
deriving DecidableEq, Repr

/-- The success dict returned by `calculate_schedule_match_percentage`. -/
structure MatchReport where
  match_percentage : ℚ
  common_slots : ℤ
  total_possible_slots : Nat
  day_breakdown : List (String × DayBreak)
  meeting_potential : ℚ
  recommendation_score : ℚ
deriving DecidableEq, Repr

/-- `WebScheduleMatcher.calculate_schedule_match_percentage`.  The outer
`Option` models a raised exception (`none`); `Sum.inl` is the not-found
error dict, `Sum.inr` the success dict.  `preferred_days = none` models
the Python default `None` (replaced by `self.days`). -/
def calculate_schedule_match_percentage (store : Store)
    (user1_id user2_id : String) (preferred_days : Option (List String)) :
    Option (MatchErr ⊕ MatchReport) :=
  match store user1_id, store user2_id with
  | some u1, some u2 =>
    let pd := preferred_days.getD days
    match matchLoop u1 u2 [] 0 0 pd with
    | none => none
    | some (day_breakdown, common_slots, total_possible_slots) =>
      let match_percentage : ℚ :=
        if 0 < total_possible_slots then
          common_slots / (total_possible_slots : ℚ) * 100
        else 0
      let meeting_potential := calculate_meeting_potential day_breakdown
      some (Sum.inr
        { match_percentage := pyRound1 match_percentage
          common_slots := pyInt common_slots
          total_possible_slots := total_possible_slots
          day_breakdown := day_breakdown
          meeting_potential := meeting_potential
          recommendation_score :=
            calculate_recommendation_score match_percentage meeting_potential })
  | _, _ => some (Sum.inl ⟨"One or both users not found", 0, 0⟩)

/-- Reading `result['match_percentage']`: the key exists in both the
error dict and the success dict. -/
def matchPercentageOf : Option (MatchErr ⊕ MatchReport) → Option ℚ
  | some (Sum.inl e) => some e.match_percentage
  | some (Sum.inr r) => some r.match_percentage
  | none => none

/-- Reading `result['common_slots']`: the key exists in both dict shapes. -/
def commonSlotsOf : Option (MatchErr ⊕ MatchReport) → Option ℤ
  | some (Sum.inl e) => some e.common_slots
  | some (Sum.inr r) => some r.common_slots
  | none => none

/-- The `available` set the code reads for a day name, for stating
specifications (`schedule[day]['available']`; `[]` when the name is not a
canonical key, in which case the code raises instead). -/
def availOn (u : UserData) (dayName : String) : List TimeSlot :=
  match lookupDay dayName with
  | some day => (u.schedule day).available
  | none => []

/-- Reading `result['day_breakdown']` of the success dict. -/
def dayBreakdownOf : Option (MatchErr ⊕ MatchReport) → Option (List (String × DayBreak))
  | some (Sum.inr r) => some r.day_breakdown
  | _ => none

/-- A day's credited points as the spec words them: 1 point per canonical
grid slot present in both users' available sets, plus 0.5 points per
ordered pair of distinct overlapping available slots (one slot from each
user). -/
def spec_day_credit (avail1 avail2 : List TimeSlot) : ℚ :=
  ((time_slots.filter fun slot => avail1.contains slot && avail2.contains slot).length : ℚ) +
    (1 / 2) * (((avail1.product avail2).filter fun p =>
      decide (p.1 ≠ p.2) && get_overlapping_slots p.1 p.2).length : ℚ)

/-- The `day_breakdown` entry the loop body stores for a valid day name. -/
def dayEntryOf (u1 u2 : UserData) (d : String) : DayBreak :=
  let day_common := day_common_points (availOn u1 d) (availOn u2 d)
  ⟨pyInt day_common, time_slots.length,
    if 0 < time_slots.length then day_common / (time_slots.length : ℚ) * 100 else 0,
    (availOn u1 d).length, (availOn u2 d).length⟩

/-- The raw credited points accumulated in `common_slots` over a day
scope (before the final `int(...)` truncation). -/
def creditSum (u1 u2 : UserData) (ds : List String) : ℚ :=
  (ds.map fun d => day_common_points (availOn u1 d) (availOn u2 d)).sum

/-! ## `get_profile_recommendations` -/

/-- One recommendation entry, as appended inside the candidate loop. -/
structure Recommendation where
  user_id : String
  name : String
  first_name : String
  last_name : String
  department : String
  year : Nat
  skills : List (String × Nat)
  schedule_match : MatchReport
  recommendation_priority : ℚ
deriving DecidableEq, Repr

/-- Reading `match_result['match_percentage']` inside the loop (the key
exists in both dict shapes). -/
def matchPercentageKey : MatchErr ⊕ MatchReport → ℚ
  | Sum.inl e => e.match_percentage
  | Sum.inr r => r.match_percentage

/-- The `for candidate_id in candidate_ids` loop of
`get_profile_recommendations`, building the pre-sort recommendation list
in candidate order.  A candidate equal to the subject or absent from the
store is skipped; reading `recommendation_score` off the error dict
(which lacks that key) would raise, hence `none` there. -/
def recLoop (store : Store) (user_id : String) (pd : Option (List String)) (thr : ℚ) :
    List String → Option (List Recommendation)
  | [] => some []
  | cid :: rest =>
    if cid = user_id then recLoop store user_id pd thr rest
    else
      match store cid with
      | none => recLoop store user_id pd thr rest
      | some cdata =>
        match calculate_schedule_match_percentage store user_id cid pd with
        | none => none
        | some mr =>
          if thr ≤ matchPercentageKey mr then
            match mr with
            | Sum.inl _ => none
            | Sum.inr r =>
              match recLoop store user_id pd thr rest with
              | none => none
              | some tail =>
                some (⟨cid, cdata.name, cdata.first_name, cdata.last_name,
                  cdata.department, cdata.year, cdata.skills, r,
                  r.recommendation_score⟩ :: tail)
          else recLoop store user_id pd thr rest

/-- The value returned by `get_profile_recommendations`: either the
single-element error list `[{'error': 'User not found'}]` or the sorted
recommendation list. -/
inductive RecResult where
  | errList (msg : String)
  | ok (recs : List Recommendation)
deriving DecidableEq, Repr

/-- `WebScheduleMatcher.get_profile_recommendations`: check the subject,
run the candidate loop, then `recommendations.sort(key=..., reverse=True)`
— a stable sort descending by `recommendation_priority`, modelled by
insertion sort with the relation "may come first", i.e. has the larger or
equal key. -/
def get_profile_recommendations (store : Store) (user_id : String)
    (candidate_ids : List String) (preferred_days : Option (List String))
    (min_match_threshold : ℚ) : Option RecResult :=
  match store user_id with
  | none => some (.errList "User not found")
  | some _ =>
    match recLoop store user_id preferred_days min_match_threshold candidate_ids with
    | none => none
    | some recs =>
      some (.ok (recs.insertionSort fun x y =>
        y.recommendation_priority ≤ x.recommendation_priority))

/-! ## `find_team_meeting_slots` -/

/-- One slot record of a bucket list.  The source also stores a
`time_slot` display string (`time_slot_to_string` of the bounds) —
pure formatting of `start_time`/`end_time`, omitted here — and
capitalizes the day name. -/
structure SlotInfo where
  day : String
  start_time : Time
  end_time : Time
  availability_percentage : ℚ
  available_members : Nat
  total_members : Nat
  available_member_names : List String
  unavailable_member_names : List String
deriving DecidableEq, Repr

/-- A member counts as available for a grid slot when the exact slot is
in their `available` set or any of their available slots overlaps it. -/
def member_is_available (member_schedule : List TimeSlot) (ts : TimeSlot) : Bool :=
  member_schedule.contains ts ||
    member_schedule.any fun member_slot => get_overlapping_slots ts member_slot

/-- The `slot_info` record and the (unrounded) availability percentage
for one `(day, time_slot)` candidate.  `team_size` is
`len(team_member_ids)`. -/
def teamSlotInfo (members : List (String × UserData)) (team_size : Nat) (day : Day)
    (dayName : String) (ts : TimeSlot) : SlotInfo × ℚ :=
  let available := members.filter fun m =>
    member_is_available ((m.2.schedule day).available) ts
  let availability_percentage : ℚ := ((available.length : ℚ) / (team_size : ℚ)) * 100
  (⟨dayName.capitalize, ts.1, ts.2, pyRound1 availability_percentage,
    available.length, team_size,
    available.map fun m => m.2.name,
    (members.filter fun m =>
      !member_is_available ((m.2.schedule day).available) ts).map fun m => m.2.name⟩,
   availability_percentage)

/-- The classification ladder: `== 100` → perfect, `>= 80` → good,
`>= 50` → backup, else dropped. -/
inductive Bucket where
  | perfect | good | backup | dropped
deriving DecidableEq, Repr

/-- Classify an availability percentage. -/
def classifySlot (pct : ℚ) : Bucket :=
  if pct = 100 then .perfect
  else if 80 ≤ pct then .good
  else if 50 ≤ pct then .backup
  else .dropped

/-- One entry of `day_statistics`. -/
structure DayStat where
  perfect_slots : Nat
  good_slots : Nat
  backup_slots : Nat
  total_viable_slots : Nat
deriving DecidableEq, Repr

/-- The slot records a day contributes to one bucket, in scan order. -/
def dayBucketList (members : List (String × UserData)) (team_size : Nat) (day : Day)
    (dayName : String) (bkt : Bucket) : List SlotInfo :=
  ((time_slots.map fun ts => teamSlotInfo members team_size day dayName ts).filter
    fun p => classifySlot p.2 == bkt).map Prod.fst

/-- The `for day in preferred_days` loop of `find_team_meeting_slots`,
with the three global bucket lists and the per-day statistics dict as
accumulators. -/
def teamLoop (members : List (String × UserData)) (team_size : Nat)
    (ps gs bs : List SlotInfo) (stats : List (String × DayStat)) :
    List String →
      Option (List SlotInfo × List SlotInfo × List SlotInfo × List (String × DayStat))
  | [] => some (ps, gs, bs, stats)
  | dayName :: rest =>
    match lookupDay dayName with
    | none => none
    | some day =>
      let dayPerfect := dayBucketList members team_size day dayName .perfect
      let dayGood := dayBucketList members team_size day dayName .good
      let dayBackup := dayBucketList members team_size day dayName .backup
      teamLoop members team_size (ps ++ dayPerfect) (gs ++ dayGood) (bs ++ dayBackup)
        (dictInsert stats dayName
          ⟨dayPerfect.length, dayGood.length, dayBackup.length,
            dayPerfect.length + dayGood.length + dayBackup.length⟩) rest

/-- The `statistics` block. -/
structure TeamStats where
  total_perfect_slots : Nat
  total_good_slots : Nat
  total_backup_slots : Nat
  success_rate : ℚ
  day_breakdown : List (String × DayStat)
  recommendation : String
deriving DecidableEq, Repr

/-- The success dict of `find_team_meeting_slots`. -/
structure TeamReport where
  member_ids : List String
  member_names : List String
  team_size : Nat
  perfect_slots : List SlotInfo
  good_slots : List SlotInfo
  backup_slots : List SlotInfo
  statistics : TeamStats
deriving DecidableEq, Repr

/-- The value returned by `find_team_meeting_slots`: the
too-few-members error dict, the users-not-found error dict (whose
message interpolates the missing-identifier list), or the success
dict. -/
inductive TeamResult where
  | err (msg : String)
  | errMissing (missing : List String)
  | ok (report : TeamReport)
deriving DecidableEq, Repr

/-- `WebScheduleMatcher._get_meeting_recommendation`: the five-tier
threshold ladder. -/
def get_meeting_recommendation (perfect good backup : Nat) : String :=
  if 5 ≤ perfect then "Excellent - Multiple perfect meeting times available"
  else if 2 ≤ perfect then "Good - Several perfect meeting times available"
  else if 1 ≤ perfect ∨ 3 ≤ good then "Fair - Some good meeting opportunities"
  else if 1 ≤ good ∨ 3 ≤ backup then "Challenging - Limited meeting opportunities"
  else "Difficult - Very few meeting opportunities"

/-- The `(identifier, profile)` pairs of the team members present in the
store (all of them, once the missing-users check has passed). -/
def teamMembers (store : Store) (team_member_ids : List String) :
    List (String × UserData) :=
  team_member_ids.filterMap fun uid => (store uid).map fun u => (uid, u)

/-- `WebScheduleMatcher.find_team_meeting_slots`.  `min_duration_hours`
is accepted and never used, as in the source. -/
def find_team_meeting_slots (store : Store) (team_member_ids : List String)
    (preferred_days : Option (List String)) (min_duration_hours : Nat) :
    Option TeamResult :=
  if team_member_ids.length < 2 then some (.err "Need at least 2 team members")
  else
    let missing_users := team_member_ids.filter fun uid => (store uid).isNone
    if missing_users ≠ [] then some (.errMissing missing_users)
    else
      let members := teamMembers store team_member_ids
      let pd := preferred_days.getD days
      match teamLoop members team_member_ids.length [] [] [] [] pd with
      | none => none
      | some (ps, gs, bs, stats) =>
        let total_checked := pd.length * time_slots.length
        let success_rate : ℚ :=
          if 0 < total_checked then
            ((ps.length + gs.length : Nat) : ℚ) / (total_checked : ℚ) * 100
          else 0
        some (.ok ⟨team_member_ids, members.map fun m => m.2.name,
          team_member_ids.length, ps.take 10, gs.take 10, bs.take 5,
          ⟨ps.length, gs.length, bs.length, pyRound1 success_rate, stats,
            get_meeting_recommendation ps.length gs.length bs.length⟩⟩)

/-- The true number of `(day, slot)` candidates a day's scan classifies
into a bucket. -/
def dayBucketCount (members : List (String × UserData)) (team_size : Nat) (day : Day)
    (dayName : String) (bkt : Bucket) : Nat :=
  time_slots.countP fun ts =>
    classifySlot (teamSlotInfo members team_size day dayName ts).2 == bkt

/-- The true number of `(day, slot)` candidates the whole scan classifies
into a bucket (0 for an invalid day name, on which the code raises
instead). -/
def scanBucketCount (members : List (String × UserData)) (team_size : Nat)
    (ds : List String) (bkt : Bucket) : Nat :=
  (ds.map fun dayName =>
    match lookupDay dayName with
    | some day => dayBucketCount members team_size day dayName bkt
    | none => 0).sum

/-- The full (pre-truncation) list of slot records of a bucket, in scan
order. -/
def scanBucketList (members : List (String × UserData)) (team_size : Nat)
    (ds : List String) (bkt : Bucket) : List SlotInfo :=
  ds.flatMap fun dayName =>
    match lookupDay dayName with
    | some day => dayBucketList members team_size day dayName bkt
    | none => []

/-- The `day_statistics` entry the scan stores for a day name. -/
def dayStatOf (members : List (String × UserData)) (team_size : Nat)
    (dayName : String) : DayStat :=
  match lookupDay dayName with
  | some day =>
    ⟨(dayBucketList members team_size day dayName .perfect).length,
      (dayBucketList members team_size day dayName .good).length,
      (dayBucketList members team_size day dayName .backup).length,
      (dayBucketList members team_size day dayName .perfect).length +
        (dayBucketList members team_size day dayName .good).length +
        (dayBucketList members team_size day dayName .backup).length⟩
  | none => ⟨0, 0, 0, 0⟩

/-! ### Concrete data for witnesses -/

/-- A day schedule with no slots. -/
def emptyDaySchedule : DaySchedule := ⟨[], [], []⟩

/-- A schedule that is available only on Monday, at the given slots. -/
def mondayOnly (slots : List TimeSlot) : Day → DaySchedule
  | .monday => ⟨slots, [], slots⟩
  | _ => emptyDaySchedule

/-- Scenario user A: available Monday 08:00–10:00 and 18:00–20:00. -/
def userA : UserData :=
  ⟨"User A", "User", "A", "CS", 3, [], mondayOnly [((8, 0), (10, 0)), ((18, 0), (20, 0))]⟩

/-- Scenario user B: available Monday 08:00–10:00 only. -/
def userB : UserData :=
  ⟨"User B", "User", "B", "CS", 3, [], mondayOnly [((8, 0), (10, 0))]⟩

/-- Custom-slot user C: available Monday 08:00–09:00 (not a grid slot). -/
def userC : UserData :=
  ⟨"User C", "User", "C", "CS", 2, [], mondayOnly [((8, 0), (9, 0))]⟩

/-- Custom-slot user D: available Monday 08:30–09:30 (not a grid slot,
overlapping user C's slot). -/
def userD : UserData :=
  ⟨"User D", "User", "D", "CS", 2, [], mondayOnly [((8, 30), (9, 30))]⟩

/-- A store with the four sample users. -/
def sampleStore : Store := fun id =>
  if id = "A" then some userA
  else if id = "B" then some userB
  else if id = "C" then some userC
  else if id = "D" then some userD
  else none

end Scheduling

namespace Scheduling

/-! ## Helper lemmas -/

/-- The overlap predicate is insensitive to the order of its arguments. -/
lemma overlap_comm (a b : TimeSlot) :
    get_overlapping_slots a b = get_overlapping_slots b a := by
  simp only [get_overlapping_slots]
  rw [Bool.or_comm]

/-- Summing a pointwise sum of two functions over a list splits. -/
lemma sum_map_add {α : Type} (l : List α) (g h : α → Nat) :
    (l.map fun x => g x + h x).sum = (l.map g).sum + (l.map h).sum := by
  induction l with
  | nil => rfl
  | cons a l ih => simp [ih]; omega

/-- Summing the indicator of a predicate over a list counts it. -/
lemma sum_map_ite_eq_countP {α : Type} (l : List α) (p : α → Bool) :
    (l.map fun x => if p x then 1 else 0).sum = l.countP p := by
  induction l with
  | nil => rfl
  | cons a l ih =>
    by_cases h : p a
    · simp [List.countP_cons, h, ih]
      omega
    · simp [List.countP_cons, h, ih]

/-- Exchanging the two nested loops of a pair count: counting, for each
`a` in `A`, the `b`s in `B` with `f a b`, totals the same as counting,
for each `b` in `B`, the `a`s in `A` with `f a b`. -/
lemma sum_countP_comm {α β : Type} (A : List α) (B : List β) (f : α → β → Bool) :
    (A.map fun a => B.countP (f a)).sum = (B.map fun b => A.countP fun a => f a b).sum := by
  induction A with
  | nil => simp
  | cons a A ih =>
    simp only [List.map_cons, List.sum_cons, ih]
    have : (B.map fun b => A.countP fun x => f x b).sum + B.countP (f a)
        = (B.map fun b => (A.countP fun x => f x b) + if f a b then 1 else 0).sum := by
      rw [sum_map_add B _ fun b => if f a b then 1 else 0, sum_map_ite_eq_countP]
    rw [← sum_map_ite_eq_countP B (f a)] at *
    simp only [List.countP_cons]
    omega

/-- The partial-overlap pair count does not depend on which user is
`user1`. -/
lemma day_pair_credit_comm (a1 a2 : List TimeSlot) :
    day_pair_credit a1 a2 = day_pair_credit a2 a1 := by
  simp only [day_pair_credit]
  rw [sum_countP_comm a1 a2 fun s1 s2 => decide (s1 ≠ s2) && get_overlapping_slots s1 s2]
  apply congrArg List.sum
  apply List.map_congr_left
  intro b _
  apply List.countP_congr
  intro a _
  rw [overlap_comm]
  simp [ne_comm]

/-- The exact-grid count does not depend on which user is `user1`. -/
lemma day_exact_credit_comm (a1 a2 : List TimeSlot) :
    day_exact_credit a1 a2 = day_exact_credit a2 a1 := by
  simp only [day_exact_credit]
  apply List.countP_congr
  intro s _
  rw [Bool.and_comm]

/-- `day_common` does not depend on which user is `user1`. -/
lemma day_common_points_comm (a1 a2 : List TimeSlot) :
    day_common_points a1 a2 = day_common_points a2 a1 := by
  simp only [day_common_points, day_exact_credit_comm a1 a2, day_pair_credit_comm a1 a2]

/-- Swap the two per-user availability counts of a breakdown entry (all
score-bearing fields are kept). -/
def swapBreak (e : DayBreak) : DayBreak :=
  { e with user1_available := e.user2_available, user2_available := e.user1_available }

/-- Swapping the users of `processDay` swaps only the availability counts
of the breakdown entry; `day_common` is unchanged. -/
lemma processDay_swap (u1 u2 : UserData) (d : String) :
    processDay u2 u1 d = (processDay u1 u2 d).map fun p => (swapBreak p.1, p.2) := by
  simp only [processDay]
  cases lookupDay d with
  | none => rfl
  | some day =>
    simp only [Option.map_some]
    rw [day_common_points_comm]
    rfl

/-- `dictInsert` commutes with mapping the stored values. -/
lemma dictInsert_map {α β : Type} (g : α → β) (l : List (String × α)) (k : String) (v : α) :
    dictInsert (l.map fun p => (p.1, g p.2)) k (g v) =
      (dictInsert l k v).map fun p => (p.1, g p.2) := by
  have hany : ((l.map fun p => (p.1, g p.2)).any fun p => p.1 == k)
      = (l.any fun p => p.1 == k) := by
    induction l with
    | nil => rfl
    | cons a l ih => simp only [List.map_cons, List.any_cons, ih]
  simp only [dictInsert, hany]
  by_cases h : l.any fun p => p.1 == k
  · simp only [h, if_true, List.map_map]
    apply List.map_congr_left
    intro p _
    by_cases hk : p.1 == k <;> simp [hk, Function.comp]
  · rw [if_neg h, if_neg h]
    simp

/-- Swapping the users of the whole loop swaps only the per-entry
availability counts; the running totals are unchanged. -/
lemma matchLoop_swap (u1 u2 : UserData) (ds : List String) :
    ∀ (bd : List (String × DayBreak)) (cs : ℚ) (tp : Nat),
      matchLoop u2 u1 (bd.map fun p => (p.1, swapBreak p.2)) cs tp ds =
        (matchLoop u1 u2 bd cs tp ds).map fun r =>
          (r.1.map fun p => (p.1, swapBreak p.2), r.2) := by
  induction ds with
  | nil => intro bd cs tp; rfl
  | cons d rest ih =>
    intro bd cs tp
    simp only [matchLoop, processDay_swap u1 u2 d]
    cases h : processDay u1 u2 d with
    | none => rfl
    | some p =>
      obtain ⟨entry, dc⟩ := p
      dsimp only [Option.map]
      rw [dictInsert_map swapBreak bd d entry, ih]
      cases matchLoop u1 u2 (dictInsert bd d entry) (cs + dc) (tp + time_slots.length) rest <;>
        rfl

/-- `swapBreak` does not change the meeting-potential computation. -/
lemma meeting_potential_swap (bd : List (String × DayBreak)) :
    calculate_meeting_potential (bd.map fun p => (p.1, swapBreak p.2)) =
      calculate_meeting_potential bd := by
  simp only [calculate_meeting_potential, List.map_map, List.length_map]
  have : ((fun p : String × DayBreak =>
        if 3 ≤ p.2.common_slots then p.2.day_percentage * (6 / 5) else p.2.day_percentage)
      ∘ fun p : String × DayBreak => (p.1, swapBreak p.2))
      = fun p : String × DayBreak =>
        if 3 ≤ p.2.common_slots then p.2.day_percentage * (6 / 5) else p.2.day_percentage := rfl
  rw [this]

/-! ## Claim theorems: overlap predicate -/

/-- **C2.** `get_overlapping_slots` is symmetric: for every pair of time
slots `a` and `b`, `get_overlapping_slots a b = get_overlapping_slots b a`. -/
theorem get_overlapping_slots_symm (a b : TimeSlot) :
    get_overlapping_slots a b = get_overlapping_slots b a :=
  overlap_comm a b

/-- **C3.** The match percentage field of
`calculate_schedule_match_percentage` is symmetric in the two user
identifiers, for every store, pair of identifiers and day scope (the
not-found error, a raised exception, and the success dict each carry the
same `match_percentage` under the swap). -/
theorem calculate_match_percentage_symm (store : Store) (a b : String)
    (pd : Option (List String)) :
    matchPercentageOf (calculate_schedule_match_percentage store a b pd) =
      matchPercentageOf (calculate_schedule_match_percentage store b a pd) := by
  simp only [calculate_schedule_match_percentage]
  cases ha : store a with
  | none => cases hb : store b with
    | none => rfl
    | some u2 => rfl
  | some u1 =>
    cases hb : store b with
    | none => rfl
    | some u2 =>
      dsimp only
      have hswap := matchLoop_swap u1 u2 (pd.getD days) [] 0 0
      simp only [List.map_nil] at hswap
      rw [hswap]
      cases matchLoop u1 u2 [] 0 0 (pd.getD days) with
      | none => rfl
      | some r =>
        obtain ⟨bd, cs, tp⟩ := r
        rfl

/-- **C7.** When either identifier has no profile,
`calculate_schedule_match_percentage` returns (it does not raise) the
explicit not-found error dict with `match_percentage` 0 and
`common_slots` 0. -/
theorem not_found_result (store : Store) (a b : String)
    (pd : Option (List String)) (h : store a = none ∨ store b = none) :
    calculate_schedule_match_percentage store a b pd =
      some (Sum.inl ⟨"One or both users not found", 0, 0⟩) := by
  rcases h with h | h
  · cases hb : store b <;> simp [calculate_schedule_match_percentage, h, hb]
  · cases ha : store a <;> simp [calculate_schedule_match_percentage, h, ha]

/-- Witness for C7: the empty store knows neither user; the call returns
the not-found dict. -/
theorem not_found_result_witness :
    calculate_schedule_match_percentage (fun _ => none) "USN001" "USN002" none =
      some (Sum.inl ⟨"One or both users not found", 0, 0⟩) :=
  not_found_result (fun _ => none) "USN001" "USN002" none (Or.inl rfl)

/-- **C4 (counterexample).** The claim "zero-length slots never overlap
anything, including themselves" is false on the code: the zero-length
slot 01:00–01:00 has `end ≤ start`, so its end is pushed to the next day
and it overlaps itself (`get_overlapping_slots` returns `True`). -/
theorem zero_length_self_overlap_counterexample :
    get_overlapping_slots ((1, 0), (1, 0)) ((1, 0), (1, 0)) = true := by
  decide

/-- **C4 (amended).** Under the "end ≤ start crosses midnight" rule a
zero-length slot `z` (start = end) is treated as a full 24-hour interval:
it always overlaps itself, and for any slot `s` whose start time is a
wall-clock time (before 24:00), `get_overlapping_slots z s` is true
exactly when `z`'s start lies strictly before `s`'s midnight-adjusted
end. -/
theorem zero_length_overlap_iff (z s : TimeSlot)
    (hz : z.1 = z.2) (hs : time_to_minutes s.1 < 24 * 60) :
    (get_overlapping_slots z s = decide (time_to_minutes z.1 < adjusted_end s)) ∧
      get_overlapping_slots z z = true := by
  have hz' : time_to_minutes z.2 = time_to_minutes z.1 := by rw [hz]
  constructor
  · simp only [get_overlapping_slots, adjusted_end]
    rw [Bool.eq_iff_iff]
    simp only [Bool.not_eq_true', Bool.or_eq_false_iff, decide_eq_false_iff_not,
      decide_eq_true_eq, not_le]
    split_ifs <;> omega
  · simp only [get_overlapping_slots]
    simp only [Bool.not_eq_true', Bool.or_eq_false_iff, decide_eq_false_iff_not, not_le]
    split_ifs <;> omega

/-- Witness for the amended C4 at `z = 01:00–01:00`, `s = 00:00–02:00`:
the zero-length slot overlaps `s` (and itself). -/
theorem zero_length_overlap_iff_witness :
    (get_overlapping_slots ((1, 0), (1, 0)) ((0, 0), (2, 0)) =
        decide (time_to_minutes (1, 0) < adjusted_end ((0, 0), (2, 0)))) ∧
      get_overlapping_slots ((1, 0), (1, 0)) ((1, 0), (1, 0)) = true :=
  zero_length_overlap_iff ((1, 0), (1, 0)) ((0, 0), (2, 0)) rfl (by decide)

/-! ## The aggregate match-percentage formula (C1) -/

/-- Filtering the pairs `(a, b)` for a fixed `a` counts the `b`s. -/
lemma length_filter_map_pair {α β : Type} (a : α) (B : List β) (g : α × β → Bool) :
    ((B.map (Prod.mk a)).filter g).length = B.countP fun b => g (a, b) := by
  induction B with
  | nil => rfl
  | cons b B ih =>
    simp only [List.map_cons, List.filter_cons, List.countP_cons]
    by_cases hb : g (a, b) <;> simp [hb, ih]

/-- Counting the pairs of a product that satisfy a predicate equals the
nested count of the two loops. -/
lemma length_filter_product {α β : Type} (A : List α) (B : List β) (g : α × β → Bool) :
    ((A.product B).filter g).length = (A.map fun a => B.countP fun b => g (a, b)).sum := by
  induction A with
  | nil => simp [List.product]
  | cons a A ih =>
    simp only [List.product, List.flatMap_cons, List.filter_append, List.length_append,
      List.map_cons, List.sum_cons]
    rw [show (A.flatMap fun x => B.map (Prod.mk x)) = A.product B from rfl, ih,
      length_filter_map_pair]

/-- The spec's wording of a day's credit computes exactly the loop's
`day_common`. -/
lemma spec_day_credit_eq (a1 a2 : List TimeSlot) :
    spec_day_credit a1 a2 = day_common_points a1 a2 := by
  simp only [spec_day_credit, day_common_points, day_exact_credit, day_pair_credit,
    List.countP_eq_length_filter, length_filter_product]

/-- On a valid day name the loop body returns the breakdown entry and the
day's raw credit. -/
lemma processDay_eq_some (u1 u2 : UserData) (d : String) (h : (lookupDay d).isSome) :
    processDay u1 u2 d =
      some (dayEntryOf u1 u2 d, day_common_points (availOn u1 d) (availOn u2 d)) := by
  cases hd : lookupDay d with
  | none => rw [hd] at h; simp at h
  | some day => simp [processDay, dayEntryOf, availOn, hd]

/-- A pointwise property of dict entries survives `dictInsert` when the
inserted pair has it. -/
lemma dictInsert_forall {α : Type} (P : String × α → Prop) (l : List (String × α))
    (k : String) (v : α) (hl : ∀ p ∈ l, P p) (hv : P (k, v)) :
    ∀ p ∈ dictInsert l k v, P p := by
  intro p hp
  simp only [dictInsert] at hp
  by_cases h : l.any fun q => q.1 == k
  · rw [if_pos h] at hp
    obtain ⟨q, hq, hqp⟩ := List.mem_map.1 hp
    by_cases hk : q.1 == k
    · rw [if_pos hk] at hqp
      rw [← hqp]
      exact hv
    · rw [if_neg hk] at hqp
      rw [← hqp]
      exact hl q hq
  · rw [if_neg h] at hp
    rcases List.mem_append.1 hp with hp | hp
    · exact hl p hp
    · rw [List.mem_singleton.1 hp]
      exact hv

/-- Running the day loop over valid day names succeeds, adds the raw
credit of each day to `common_slots`, adds 12 per day to
`total_possible_slots`, and fills `day_breakdown` with the per-day
entries. -/
lemma matchLoop_some (u1 u2 : UserData) :
    ∀ (ds : List String), (∀ d ∈ ds, (lookupDay d).isSome) →
      ∀ (bd : List (String × DayBreak)) (cs : ℚ) (tp : Nat),
        (∀ p ∈ bd, p.2 = dayEntryOf u1 u2 p.1) →
        ∃ BD, matchLoop u1 u2 bd cs tp ds =
            some (BD, cs + creditSum u1 u2 ds, tp + time_slots.length * ds.length) ∧
          ∀ p ∈ BD, p.2 = dayEntryOf u1 u2 p.1
  | [], _, bd, cs, tp, hbd => ⟨bd, by simp [matchLoop, creditSum], hbd⟩
  | d :: rest, h, bd, cs, tp, hbd => by
    have hd : (lookupDay d).isSome := h d (List.mem_cons_self d rest)
    have hrest : ∀ x ∈ rest, (lookupDay x).isSome := fun x hx => h x (List.mem_cons_of_mem d hx)
    rw [matchLoop, processDay_eq_some u1 u2 d hd]
    dsimp only
    have hbd' : ∀ p ∈ dictInsert bd d (dayEntryOf u1 u2 d), p.2 = dayEntryOf u1 u2 p.1 :=
      dictInsert_forall (fun p => p.2 = dayEntryOf u1 u2 p.1) bd d _ hbd rfl
    obtain ⟨BD, hBD, hP⟩ := matchLoop_some u1 u2 rest hrest
      (dictInsert bd d (dayEntryOf u1 u2 d))
      (cs + day_common_points (availOn u1 d) (availOn u2 d)) (tp + time_slots.length) hbd'
    refine ⟨BD, ?_, hP⟩
    rw [hBD]
    have h1 : cs + day_common_points (availOn u1 d) (availOn u2 d) + creditSum u1 u2 rest
        = cs + creditSum u1 u2 (d :: rest) := by
      simp only [creditSum, List.map_cons, List.sum_cons]
      ring
    have h2 : tp + time_slots.length + time_slots.length * rest.length
        = tp + time_slots.length * (d :: rest).length := by
      simp only [List.length_cons]
      ring
    rw [h1, h2]

/-- **C1.** For two known profiles and a non-empty scope of valid day
names, the returned `match_percentage` is the sum over the days of the
credited points (1 per shared canonical grid slot, 0.5 per ordered pair
of distinct overlapping available slots) divided by (number of days ×
number of grid slots), times 100, rounded to one decimal. -/
theorem match_percentage_formula (store : Store) (a b : String) (u1 u2 : UserData)
    (ds : List String) (h1 : store a = some u1) (h2 : store b = some u2)
    (hdays : ∀ d ∈ ds, (lookupDay d).isSome) (hne : ds ≠ []) :
    matchPercentageOf (calculate_schedule_match_percentage store a b (some ds)) =
      some (pyRound1 ((ds.map fun d => spec_day_credit (availOn u1 d) (availOn u2 d)).sum /
        ((ds.length : ℚ) * (time_slots.length : ℚ)) * 100)) := by
  obtain ⟨BD, hBD, -⟩ := matchLoop_some u1 u2 ds hdays [] 0 0 (by simp)
  simp only [calculate_schedule_match_percentage, h1, h2, Option.getD_some, hBD]
  have hpos : 0 < time_slots.length * ds.length := by
    have hlen : ds.length ≠ 0 := fun hcon => hne (List.length_eq_zero.1 hcon)
    have h12 : time_slots.length = 12 := rfl
    rw [h12]
    omega
  simp only [zero_add, hpos, if_true, matchPercentageOf]
  congr 1
  apply congrArg pyRound1
  have hsum : (ds.map fun d => spec_day_credit (availOn u1 d) (availOn u2 d)).sum
      = creditSum u1 u2 ds := by
    simp only [creditSum]
    apply congrArg List.sum
    apply List.map_congr_left
    intro d _
    exact spec_day_credit_eq _ _
  rw [hsum]
  have hcast : ((time_slots.length * ds.length : Nat) : ℚ)
      = (ds.length : ℚ) * (time_slots.length : ℚ) := by
    push_cast
    ring
  rw [hcast]

/-- Witness for C1 at the spec's scenario: A available Monday 08:00–10:00
and 18:00–20:00, B available Monday 08:00–10:00, scope `["monday"]`; also
checks the scenario's claim that the Monday day percentage is
`1/12 × 100`. -/
theorem match_percentage_formula_witness :
    (matchPercentageOf (calculate_schedule_match_percentage sampleStore "A" "B"
        (some ["monday"])) =
      some (pyRound1 (((["monday"] : List String).map fun d =>
          spec_day_credit (availOn userA d) (availOn userB d)).sum /
        (((["monday"] : List String).length : ℚ) * (time_slots.length : ℚ)) * 100))) ∧
    dayBreakdownOf (calculate_schedule_match_percentage sampleStore "A" "B"
        (some ["monday"])) =
      some [("monday", ⟨1, 12, 1 / 12 * 100, 2, 1⟩)] := by
  constructor
  · exact match_percentage_formula sampleStore "A" "B" userA userB ["monday"]
      rfl rfl (by decide) (by decide)
  · simp [dayBreakdownOf, calculate_schedule_match_percentage, sampleStore,
      matchLoop, processDay, lookupDay, dictInsert, day_common_points,
      day_exact_credit, day_pair_credit, time_slots, get_overlapping_slots,
      time_to_minutes, userA, userB, mondayOnly, pyInt,
      List.countP_cons, List.countP_nil]

/-! ## Truncation of `common_slots` (C5) -/

/-- **C5 (counterexample).** The claim that the `common_slots` field
equals the raw credited-point count (possibly fractional) is false: with
C available Monday 08:00–09:00 and D available Monday 08:30–09:30, the
raw credit is 0.5 (one overlapping pair, no exact grid match), but the
returned `common_slots` is `int(0.5) = 0`. -/
theorem common_slots_truncation_counterexample :
    commonSlotsOf (calculate_schedule_match_percentage sampleStore "C" "D"
        (some ["monday"])) = some 0 ∧
      creditSum userC userD ["monday"] = 1 / 2 := by
  constructor
  · simp [commonSlotsOf, calculate_schedule_match_percentage, sampleStore,
      matchLoop, processDay, lookupDay, dictInsert, day_common_points,
      day_exact_credit, day_pair_credit, time_slots, get_overlapping_slots,
      time_to_minutes, userC, userD, mondayOnly, pyInt,
      List.countP_cons, List.countP_nil]
    norm_num
  · simp [creditSum, availOn, lookupDay, day_common_points, day_exact_credit,
      day_pair_credit, time_slots, get_overlapping_slots, time_to_minutes,
      userC, userD, mondayOnly, List.countP_cons, List.countP_nil]

/-- **C5 (amended).** The `common_slots` field of the result is the
Python `int(...)` truncation of the raw credited-point count (the
fractional 0.5 credits are dropped in the reported fields), and each
per-day breakdown entry's `common_slots` is the truncation of that day's
raw credit. -/
theorem common_slots_is_truncation (store : Store) (a b : String) (u1 u2 : UserData)
    (ds : List String) (h1 : store a = some u1) (h2 : store b = some u2)
    (hdays : ∀ d ∈ ds, (lookupDay d).isSome) :
    ∃ r : MatchReport,
      calculate_schedule_match_percentage store a b (some ds) = some (Sum.inr r) ∧
        r.common_slots = pyInt (creditSum u1 u2 ds) ∧
        ∀ p ∈ r.day_breakdown,
          p.2.common_slots = pyInt (day_common_points (availOn u1 p.1) (availOn u2 p.1)) := by
  obtain ⟨BD, hBD, hP⟩ := matchLoop_some u1 u2 ds hdays [] 0 0 (by simp)
  rw [zero_add] at hBD
  simp only [calculate_schedule_match_percentage, h1, h2, Option.getD_some, hBD]
  refine ⟨_, rfl, rfl, ?_⟩
  intro p hp
  rw [hP p hp]
  rfl

/-- Witness for the amended C5 at the C/D pair above: the raw credit 0.5
is reported as `common_slots = 0`. -/
theorem common_slots_is_truncation_witness :
    ∃ r : MatchReport,
      calculate_schedule_match_percentage sampleStore "C" "D" (some ["monday"]) =
          some (Sum.inr r) ∧
        r.common_slots = pyInt (creditSum userC userD ["monday"]) ∧
        ∀ p ∈ r.day_breakdown,
          p.2.common_slots = pyInt (day_common_points (availOn userC p.1) (availOn userD p.1)) :=
  common_slots_is_truncation sampleStore "C" "D" userC userD ["monday"] rfl rfl (by decide)

/-! ## Invalid day names raise (C6) -/

/-- **C6 (counterexample).** The claim that an out-of-range day-scope
value is reported as a structured error in the return value is false on
the code: with both users known, the schedule-dict lookup
`schedule['funday']` raises `KeyError`, modelled here by the call
producing `none` (no structured result at all). -/
theorem invalid_day_counterexample :
    calculate_schedule_match_percentage sampleStore "A" "B" (some ["funday"]) = none := by
  simp [calculate_schedule_match_percentage, sampleStore, matchLoop, processDay, lookupDay]

/-- The day loop raises as soon as any day of the scope is not a
canonical key. -/
lemma matchLoop_none (u1 u2 : UserData) (d : String) (hbad : lookupDay d = none) :
    ∀ (ds : List String), d ∈ ds → ∀ bd cs tp, matchLoop u1 u2 bd cs tp ds = none := by
  intro ds
  induction ds with
  | nil => intro h; cases h
  | cons x rest ih =>
    intro hmem bd cs tp
    rcases List.mem_cons.1 hmem with rfl | hmem'
    · rw [matchLoop, processDay, hbad]
    · rw [matchLoop]
      cases hx : processDay u1 u2 x with
      | none => rfl
      | some p => exact ih hmem' _ _ _

/-- **C6 (amended).** A day-scope value outside the seven canonical day
names makes `calculate_schedule_match_percentage` raise an uncaught
`KeyError` (the call yields no return value) whenever both users are
known; no structured InvalidDayName result is produced. -/
theorem invalid_day_raises (store : Store) (a b : String) (u1 u2 : UserData)
    (ds : List String) (d : String) (h1 : store a = some u1) (h2 : store b = some u2)
    (hmem : d ∈ ds) (hbad : lookupDay d = none) :
    calculate_schedule_match_percentage store a b (some ds) = none := by
  simp only [calculate_schedule_match_percentage, h1, h2, Option.getD_some,
    matchLoop_none u1 u2 d hbad ds hmem]

/-- Witness for the amended C6: the unknown day name `"funday"` makes the
call raise. -/
theorem invalid_day_raises_witness :
    calculate_schedule_match_percentage sampleStore "A" "B" (some ["funday"]) = none :=
  invalid_day_raises sampleStore "A" "B" userA userB ["funday"] "funday" rfl rfl
    (List.mem_singleton.2 rfl) rfl

/-! ## Sorting and filtering of recommendations (C8) -/

/-- Inserting into a stable descending sort: entries with any given key
value keep their relative order — the inserted element goes in front of
the equal-keyed ones (it came from earlier in the pass), and elements
with other key values are untouched. -/
lemma filter_key_orderedInsert {α : Type} (k : α → ℚ) (q : ℚ) (a : α) (l : List α) :
    ((l.orderedInsert (fun x y => k y ≤ k x) a).filter fun x => decide (k x = q)) =
      if k a = q then a :: l.filter fun x => decide (k x = q)
      else l.filter fun x => decide (k x = q) := by
  have hld : (l.filter fun x => decide (k x = q)) =
      ((l.takeWhile fun b => decide ¬ (k b ≤ k a)).filter fun x => decide (k x = q)) ++
        (l.dropWhile fun b => decide ¬ (k b ≤ k a)).filter fun x => decide (k x = q) := by
    rw [← List.filter_append, List.takeWhile_append_dropWhile]
  simp only [List.orderedInsert_eq_take_drop, List.filter_append, List.filter_cons]
  by_cases h : k a = q
  · have htake : ((l.takeWhile fun b => decide ¬ (k b ≤ k a)).filter
        fun x => decide (k x = q)) = [] := by
      rw [List.filter_eq_nil_iff]
      intro x hx
      have hw := List.mem_takeWhile_imp hx
      simp only [decide_eq_true_eq] at hw ⊢
      intro hxq
      exact hw (le_of_eq (by rw [hxq, h]))
    rw [if_pos h, hld, htake]
    simp [h]
  · rw [if_neg h, hld]
    simp [h]

/-- The stable descending insertion sort preserves, for every key value,
the sublist of entries carrying that key (Python's stable
`sort(reverse=True)`). -/
lemma filter_key_insertionSort {α : Type} (k : α → ℚ) (q : ℚ) :
    ∀ l : List α,
      ((l.insertionSort fun x y => k y ≤ k x).filter fun x => decide (k x = q)) =
        l.filter fun x => decide (k x = q)
  | [] => rfl
  | a :: l => by
    rw [List.insertionSort, filter_key_orderedInsert k q a, List.filter_cons]
    by_cases h : k a = q
    · rw [if_pos h, filter_key_insertionSort k q l]
      simp [h]
    · rw [if_neg h, filter_key_insertionSort k q l]
      simp [h]

/-- Every entry the candidate loop emits was admitted by its checks: it
is not the subject, its identifier resolves, its match percentage
reaches the threshold, and its priority is its recommendation score. -/
lemma recLoop_mem (store : Store) (uid : String) (pd : Option (List String)) (thr : ℚ) :
    ∀ (cands : List String) (l : List Recommendation),
      recLoop store uid pd thr cands = some l →
      ∀ rec ∈ l, rec.user_id ≠ uid ∧ (store rec.user_id).isSome ∧
        thr ≤ rec.schedule_match.match_percentage ∧
        rec.recommendation_priority = rec.schedule_match.recommendation_score
  | [], l, h => by
    intro rec hrec
    rw [recLoop] at h
    injection h with h
    rw [← h] at hrec
    cases hrec
  | cid :: rest, l, h => by
    intro rec hrec
    rw [recLoop] at h
    by_cases hc : cid = uid
    · rw [if_pos hc] at h
      exact recLoop_mem store uid pd thr rest l h rec hrec
    · rw [if_neg hc] at h
      cases hstore : store cid with
      | none =>
        rw [hstore] at h
        exact recLoop_mem store uid pd thr rest l h rec hrec
      | some cdata =>
        rw [hstore] at h
        cases hmr : calculate_schedule_match_percentage store uid cid pd with
        | none => rw [hmr] at h; dsimp only at h; cases h
        | some mr =>
          rw [hmr] at h
          dsimp only at h
          by_cases hthr : thr ≤ matchPercentageKey mr
          · rw [if_pos hthr] at h
            cases mr with
            | inl e => cases h
            | inr r =>
              cases hrest : recLoop store uid pd thr rest with
              | none => rw [hrest] at h; cases h
              | some tail =>
                rw [hrest] at h
                injection h with h
                rw [← h] at hrec
                rcases List.mem_cons.1 hrec with rfl | hrec'
                · exact ⟨hc, by rw [hstore]; rfl, hthr, rfl⟩
                · exact recLoop_mem store uid pd thr rest tail hrest rec hrec'
          · rw [if_neg hthr] at h
            exact recLoop_mem store uid pd thr rest l h rec hrec

/-- **C8.** For a known subject, when `get_profile_recommendations`
returns a list, that list is sorted non-increasingly by recommendation
score, keeps entries of equal score in original candidate order (it
filters, per score value, to the same sublist as the pre-sort loop
output), contains no entry below the threshold, and contains no entry
for the subject itself or for an unknown identifier. -/
theorem recommendations_sorted_filtered (store : Store) (uid : String) (u : UserData)
    (cands : List String) (pd : Option (List String)) (thr : ℚ)
    (recs : List Recommendation) (hu : store uid = some u)
    (hres : get_profile_recommendations store uid cands pd thr = some (.ok recs)) :
    recs.Pairwise (fun x y => y.recommendation_priority ≤ x.recommendation_priority) ∧
      (∀ rec ∈ recs, thr ≤ rec.schedule_match.match_percentage) ∧
      (∀ rec ∈ recs, rec.user_id ≠ uid ∧ (store rec.user_id).isSome) ∧
      ∃ pre, recLoop store uid pd thr cands = some pre ∧
        ∀ q : ℚ, (recs.filter fun x => decide (x.recommendation_priority = q)) =
          pre.filter fun x => decide (x.recommendation_priority = q) := by
  cases hpre : recLoop store uid pd thr cands with
  | none =>
    rw [get_profile_recommendations, hu, hpre] at hres
    cases hres
  | some pre =>
    simp only [get_profile_recommendations, hu, hpre, Option.some.injEq,
      RecResult.ok.injEq] at hres
    have hmem := recLoop_mem store uid pd thr cands pre hpre
    have hsorted : recs.Pairwise
        (fun x y => y.recommendation_priority ≤ x.recommendation_priority) := by
      rw [← hres]
      haveI : IsTotal Recommendation
          (fun x y => y.recommendation_priority ≤ x.recommendation_priority) :=
        ⟨fun a b => le_total b.recommendation_priority a.recommendation_priority⟩
      haveI : IsTrans Recommendation
          (fun x y => y.recommendation_priority ≤ x.recommendation_priority) :=
        ⟨fun _ _ _ hab hbc => le_trans hbc hab⟩
      exact List.sorted_insertionSort _ pre
    have hmemiff : ∀ rec ∈ recs, rec ∈ pre := by
      intro rec hrec
      rw [← hres] at hrec
      exact (List.mem_insertionSort _).1 hrec
    refine ⟨hsorted, ?_, ?_, pre, rfl, ?_⟩
    · intro rec hrec
      exact (hmem rec (hmemiff rec hrec)).2.2.1
    · intro rec hrec
      exact ⟨(hmem rec (hmemiff rec hrec)).1, (hmem rec (hmemiff rec hrec)).2.1⟩
    · intro q
      rw [← hres]
      exact filter_key_insertionSort (fun x => x.recommendation_priority) q pre

/-- Witness for C8: subject A with candidates B and C over Monday,
threshold 0 — the returned list is B then C (scores 25/3 > 25/6), above
threshold, without the subject, and stable per score value. -/
theorem recommendations_sorted_filtered_witness :
    ∃ recs : List Recommendation,
      get_profile_recommendations sampleStore "A" ["B", "C"] (some ["monday"]) 0 =
          some (.ok recs) ∧
        (recs.Pairwise (fun x y => y.recommendation_priority ≤ x.recommendation_priority) ∧
          (∀ rec ∈ recs, (0 : ℚ) ≤ rec.schedule_match.match_percentage) ∧
          (∀ rec ∈ recs, rec.user_id ≠ "A" ∧ (sampleStore rec.user_id).isSome) ∧
          ∃ pre, recLoop sampleStore "A" (some ["monday"]) 0 ["B", "C"] = some pre ∧
            ∀ q : ℚ, (recs.filter fun x => decide (x.recommendation_priority = q)) =
              pre.filter fun x => decide (x.recommendation_priority = q)) := by
  have hres : get_profile_recommendations sampleStore "A" ["B", "C"] (some ["monday"]) 0 =
      some (.ok [⟨"B", "User B", "User", "B", "CS", 3, [],
          ⟨83 / 10, 1, 12, [("monday", ⟨1, 12, 25 / 3, 2, 1⟩)], 25 / 3, 25 / 3⟩, 25 / 3⟩,
        ⟨"C", "User C", "User", "C", "CS", 2, [],
          ⟨21 / 5, 0, 12, [("monday", ⟨0, 12, 25 / 6, 2, 1⟩)], 25 / 6, 25 / 6⟩, 25 / 6⟩]) := by
    have hfl : ⌊(250 : ℚ) / 3⌋ = 83 := by norm_num [Int.floor_eq_iff]
    have hfl2 : ⌊(125 : ℚ) / 3⌋ = 41 := by norm_num [Int.floor_eq_iff]
    have hfl3 : ⌊(1 : ℚ) / 2⌋ = 0 := by norm_num [Int.floor_eq_iff]
    simp [get_profile_recommendations, recLoop, sampleStore, matchPercentageKey,
      List.insertionSort, calculate_schedule_match_percentage, matchLoop, processDay,
      lookupDay, dictInsert, day_common_points, day_exact_credit, day_pair_credit,
      time_slots, get_overlapping_slots, time_to_minutes, userA, userB, userC,
      mondayOnly, pyInt, pyRound1, roundHalfEven, calculate_meeting_potential,
      calculate_recommendation_score, List.countP_cons, List.countP_nil]
    norm_num [Int.fract, hfl, hfl2, hfl3, List.insertionSort, List.orderedInsert]
  exact ⟨_, hres, recommendations_sorted_filtered sampleStore "A" userA ["B", "C"]
    (some ["monday"]) 0 _ rfl hres⟩

/-! ## Pre-truncation statistics of the team scan (C9) -/

/-- A day's bucket list is as long as the day's bucket count. -/
lemma dayBucketList_length (members : List (String × UserData)) (n : Nat) (day : Day)
    (dayName : String) (bkt : Bucket) :
    (dayBucketList members n day dayName bkt).length =
      dayBucketCount members n day dayName bkt := by
  simp only [dayBucketList, dayBucketCount, List.length_map, ← List.countP_eq_length_filter]
  induction time_slots with
  | nil => rfl
  | cons ts rest ih =>
    simp only [List.map_cons, List.countP_cons, ih]

/-- The full scan list of a bucket is as long as the scan count. -/
lemma scanBucketList_length (members : List (String × UserData)) (n : Nat)
    (bkt : Bucket) : ∀ ds : List String,
    (scanBucketList members n ds bkt).length = scanBucketCount members n ds bkt
  | [] => rfl
  | d :: rest => by
    simp only [scanBucketList, scanBucketCount, List.flatMap_cons, List.length_append,
      List.map_cons, List.sum_cons]
    cases hd : lookupDay d with
    | none =>
      dsimp only
      have := scanBucketList_length members n bkt rest
      simp only [scanBucketList, scanBucketCount] at this
      simp only [List.length_nil]
      omega
    | some day =>
      dsimp only
      rw [dayBucketList_length]
      have := scanBucketList_length members n bkt rest
      simp only [scanBucketList, scanBucketCount] at this
      omega

/-- Running the team-scan loop over valid day names succeeds, appends
each day's bucket lists in scan order, and stores each day's true
counts in the statistics dict. -/
lemma teamLoop_some (members : List (String × UserData)) (n : Nat) :
    ∀ (ds : List String), (∀ d ∈ ds, (lookupDay d).isSome) →
      ∀ (ps gs bs : List SlotInfo) (stats : List (String × DayStat)),
        (∀ p ∈ stats, p.2 = dayStatOf members n p.1) →
        ∃ stats2, teamLoop members n ps gs bs stats ds =
            some (ps ++ scanBucketList members n ds .perfect,
              gs ++ scanBucketList members n ds .good,
              bs ++ scanBucketList members n ds .backup, stats2) ∧
          ∀ p ∈ stats2, p.2 = dayStatOf members n p.1
  | [], _, ps, gs, bs, stats, hstats =>
    ⟨stats, by simp [teamLoop, scanBucketList], hstats⟩
  | d :: rest, h, ps, gs, bs, stats, hstats => by
    obtain ⟨day, hday⟩ := Option.isSome_iff_exists.1 (h d (List.mem_cons_self d rest))
    have hrest : ∀ x ∈ rest, (lookupDay x).isSome :=
      fun x hx => h x (List.mem_cons_of_mem d hx)
    rw [teamLoop, hday]
    dsimp only
    have hstat_val : dayStatOf members n d =
        ⟨(dayBucketList members n day d .perfect).length,
          (dayBucketList members n day d .good).length,
          (dayBucketList members n day d .backup).length,
          (dayBucketList members n day d .perfect).length +
            (dayBucketList members n day d .good).length +
            (dayBucketList members n day d .backup).length⟩ := by
      simp [dayStatOf, hday]
    have hstats' : ∀ p ∈ dictInsert stats d
        ⟨(dayBucketList members n day d .perfect).length,
          (dayBucketList members n day d .good).length,
          (dayBucketList members n day d .backup).length,
          (dayBucketList members n day d .perfect).length +
            (dayBucketList members n day d .good).length +
            (dayBucketList members n day d .backup).length⟩,
        p.2 = dayStatOf members n p.1 :=
      dictInsert_forall (fun p => p.2 = dayStatOf members n p.1) stats d _ hstats
        hstat_val.symm
    obtain ⟨stats2, hloop, hP⟩ := teamLoop_some members n rest hrest
      (ps ++ dayBucketList members n day d .perfect)
      (gs ++ dayBucketList members n day d .good)
      (bs ++ dayBucketList members n day d .backup) _ hstats'
    refine ⟨stats2, ?_, hP⟩
    rw [hloop]
    simp only [scanBucketList, List.flatMap_cons, hday, List.append_assoc]

/-- **C9.** For a team of at least two known members over valid day
names, the statistics block's totals (and each per-day entry) equal the
true numbers of `(day, slot)` candidates classified into each bucket by
the full scan, while the returned lists are the first 10/10/5 entries of
the full bucket lists in scan order. -/
theorem team_statistics_pretruncation (store : Store) (ids : List String)
    (ds : List String) (mdh : Nat) (hsize : 2 ≤ ids.length)
    (hknown : ∀ id ∈ ids, (store id).isSome)
    (hdays : ∀ d ∈ ds, (lookupDay d).isSome) :
    ∃ rep : TeamReport,
      find_team_meeting_slots store ids (some ds) mdh = some (.ok rep) ∧
        rep.statistics.total_perfect_slots =
            scanBucketCount (teamMembers store ids) ids.length ds .perfect ∧
        rep.statistics.total_good_slots =
            scanBucketCount (teamMembers store ids) ids.length ds .good ∧
        rep.statistics.total_backup_slots =
            scanBucketCount (teamMembers store ids) ids.length ds .backup ∧
        rep.perfect_slots = (scanBucketList (teamMembers store ids) ids.length ds
            .perfect).take 10 ∧
        rep.good_slots = (scanBucketList (teamMembers store ids) ids.length ds
            .good).take 10 ∧
        rep.backup_slots = (scanBucketList (teamMembers store ids) ids.length ds
            .backup).take 5 ∧
        ∀ p ∈ rep.statistics.day_breakdown,
          p.2 = dayStatOf (teamMembers store ids) ids.length p.1 := by
  have hmiss : (ids.filter fun uid => (store uid).isNone) = [] := by
    rw [List.filter_eq_nil_iff]
    intro uid huid
    have := hknown uid huid
    cases hs : store uid with
    | none => rw [hs] at this; cases this
    | some u => simp [hs]
  obtain ⟨stats2, hloop, hP⟩ := teamLoop_some (teamMembers store ids) ids.length ds hdays
    [] [] [] [] (by simp)
  simp only [find_team_meeting_slots, hmiss, Option.getD_some, hloop]
  rw [if_neg (by omega : ¬ ids.length < 2)]
  simp only [ne_eq, not_true_eq_false, if_false, List.nil_append]
  refine ⟨_, rfl, ?_, ?_, ?_, rfl, rfl, rfl, hP⟩ <;>
    simp [scanBucketList_length]

/-- Witness for C9: the team A, B over Monday. -/
theorem team_statistics_pretruncation_witness :
    ∃ rep : TeamReport,
      find_team_meeting_slots sampleStore ["A", "B"] (some ["monday"]) 2 =
          some (.ok rep) ∧
        rep.statistics.total_perfect_slots =
            scanBucketCount (teamMembers sampleStore ["A", "B"]) 2 ["monday"] .perfect ∧
        rep.statistics.total_good_slots =
            scanBucketCount (teamMembers sampleStore ["A", "B"]) 2 ["monday"] .good ∧
        rep.statistics.total_backup_slots =
            scanBucketCount (teamMembers sampleStore ["A", "B"]) 2 ["monday"] .backup ∧
        rep.perfect_slots = (scanBucketList (teamMembers sampleStore ["A", "B"]) 2
            ["monday"] .perfect).take 10 ∧
        rep.good_slots = (scanBucketList (teamMembers sampleStore ["A", "B"]) 2
            ["monday"] .good).take 10 ∧
        rep.backup_slots = (scanBucketList (teamMembers sampleStore ["A", "B"]) 2
            ["monday"] .backup).take 5 ∧
        ∀ p ∈ rep.statistics.day_breakdown,
          p.2 = dayStatOf (teamMembers sampleStore ["A", "B"]) 2 p.1 :=
  team_statistics_pretruncation sampleStore ["A", "B"] ["monday"] 2 (by decide)
    (by decide) (by decide)

/-! ## Guarded divisions on an empty day scope (C10) -/

/-- **C10.** With an empty `preferred_days` list, the pairwise calculator
returns normally (`match_percentage` 0, `common_slots` 0, empty
breakdown, `meeting_potential` 0, `recommendation_score` 0) because the
two divisions are guarded; likewise the team finder returns a report
whose `success_rate` is 0. -/
theorem empty_day_scope_guarded :
    (∀ (store : Store) (a b : String) (u1 u2 : UserData),
      store a = some u1 → store b = some u2 →
      calculate_schedule_match_percentage store a b (some []) =
        some (Sum.inr ⟨0, 0, 0, [], 0, 0⟩)) ∧
    (∀ (store : Store) (ids : List String) (mdh : Nat),
      2 ≤ ids.length → (∀ id ∈ ids, (store id).isSome) →
      ∃ rep : TeamReport,
        find_team_meeting_slots store ids (some []) mdh = some (.ok rep) ∧
          rep.statistics.success_rate = 0) := by
  have h0 : pyRound1 0 = 0 := by norm_num [pyRound1, roundHalfEven]
  constructor
  · intro store a b u1 u2 h1 h2
    simp only [calculate_schedule_match_percentage, h1, h2, Option.getD_some, matchLoop]
    norm_num [h0, pyInt, calculate_meeting_potential, calculate_recommendation_score]
  · intro store ids mdh hsize hknown
    have hmiss : (ids.filter fun uid => (store uid).isNone) = [] := by
      rw [List.filter_eq_nil_iff]
      intro uid huid
      have := hknown uid huid
      cases hs : store uid with
      | none => rw [hs] at this; cases this
      | some u => simp [hs]
    simp only [find_team_meeting_slots, hmiss, Option.getD_some, teamLoop]
    rw [if_neg (by omega : ¬ ids.length < 2)]
    simp only [ne_eq, not_true_eq_false, if_false]
    exact ⟨_, rfl, by simp [h0]⟩

/-- Witness for C10 at the sample store: the pair A, B and the team
A, B with an empty day scope. -/
theorem empty_day_scope_guarded_witness :
    calculate_schedule_match_percentage sampleStore "A" "B" (some []) =
        some (Sum.inr ⟨0, 0, 0, [], 0, 0⟩) ∧
      ∃ rep : TeamReport,
        find_team_meeting_slots sampleStore ["A", "B"] (some []) 2 = some (.ok rep) ∧
          rep.statistics.success_rate = 0 :=
  ⟨empty_day_scope_guarded.1 sampleStore "A" "B" userA userB rfl rfl,
    empty_day_scope_guarded.2 sampleStore ["A", "B"] 2 (by decide) (by decide)⟩

end Scheduling
